import Mathlib

/-!
# Verification of the SMHI open-data reporting utility

Shallow embedding of `smhi/smhi.py`.  The program fetches a station list and
per-station observations over HTTP; here the network is modelled as explicit
inputs: the parsed station-list body is a `List StationRec`, the per-station
responses are a function `String → StationResponse` from station key to the
(already JSON-parsed) response, and the single clock sample
`now = datetime.now(timezone.utc)` is an integer count of microseconds since
the epoch (Python datetimes and timedeltas have exactly microsecond
precision, so integer microseconds are lossless).

Python floats are modelled by `Temp`: an exact rational, `±inf`, or `nan`
(`float(s)` accepts "inf"/"nan" strings; comparisons with `nan` are always
false, as in IEEE).  The observation `value` field is modelled pre-classified
by the outcome of `float(...)` on it (`ValueLit`), since a bit-faithful model
of Python's float-literal grammar is not needed by any property here.
Uncaught Python exceptions (KeyError from a missing JSON field, ValueError
from `int(...)`) are modelled with `Except PyExn`.
-/

deriving instance DecidableEq for Except

/-- A record of the station-list body `r.json()["station"]`: `key` and
`updated` (epoch milliseconds) are always read by the code; `name` may be
absent in partial responses (the repository's own tests omit it). -/
structure StationRec where
  key : String
  name : Option String
  updated : Int
deriving DecidableEq

/-- Value of a Python float: finite (exact rational), ±infinity, or NaN. -/
inductive Temp where
  | negInf
  | fin (q : ℚ)
  | posInf
  | nan
deriving DecidableEq

/-- Outcome classes of Python `float(x)` on the observation's `value` field:
either it parses (to a finite value, an infinity, or a NaN), or it raises. -/
inductive ValueLit where
  | num (t : Temp)
  | bad
deriving DecidableEq

/-- Python `a < b` on floats: any comparison involving NaN is false. -/
def Temp.ltb : Temp → Temp → Bool
  | .nan, _ => false
  | _, .nan => false
  | .negInf, .negInf => false
  | .negInf, _ => true
  | .fin _, .negInf => false
  | .fin a, .fin b => decide (a < b)
  | .fin _, .posInf => true
  | .posInf, _ => false

/-- Python `a > b` on floats is `b < a`. -/
def Temp.gtb (a b : Temp) : Bool := Temp.ltb b a

/-- Non-strict order used in statements about the printed extrema. -/
def Temp.leb (a b : Temp) : Bool := Temp.ltb a b || decide (a = b)

/-- One entry of the body's `value` array; its `value` field may be absent. -/
structure ObsEntry where
  value : Option ValueLit
deriving DecidableEq

/-- The `station` sub-object of a per-station response body; either field may
be absent in a partial response. -/
structure RespStation where
  key : Option String
  name : Option String
deriving DecidableEq

/-- A parsed per-station HTTP response: status code, the `station` sub-object
(`none`: the body has no `"station"` key) and the `value` array (`none`: the
body has no `"value"` key). -/
structure StationResponse where
  status : Nat
  station : Option RespStation
  value : Option (List ObsEntry)
deriving DecidableEq

/-- `StationTemp = namedtuple("StationTemp", ["key", "name", "temp", "station"])`.
The accumulator initializers use `key=None`, `station=None`. -/
structure StationTemp where
  key : Option String
  name : String
  temp : Temp
  station : Option RespStation
deriving DecidableEq

/-- Uncaught Python exceptions of the modelled code paths. -/
inductive PyExn where
  | keyError (field : String)
  | valueError
deriving DecidableEq

/-- Log events emitted by `get_station_data` (debug for a non-200 status,
warning naming the station when the temperature cannot be extracted, info on
a successful reading). -/
inductive LogEntry where
  | statusDebug (key : String) (status : Nat)
  | noTempWarning (name : String)
  | stationInfo (data : StationTemp)
deriving DecidableEq

/-- The body of `try: station_temp = float(r["value"][0]["value"]) except: ...`:
`none` means the bare `except` catches (missing `value` key, empty list,
first element without a `value` field, or `float` raising). -/
def tryParseTemp : Option (List ObsEntry) → Option Temp
  | none => none
  | some [] => none
  | some (e :: _) =>
    match e.value with
    | none => none
    | some (.num t) => some t
    | some .bad => none

/-- `get_station_data(self, station)`: only `station["key"]` is used, to build
the request path (modelled by applying `fetch` to the key).  Returns the
Python result (`.ok none` for `return None`, `.error` for an uncaught
KeyError) together with the log entries emitted. -/
def get_station_data (fetch : String → StationResponse) (station : StationRec) :
    Except PyExn (Option StationTemp) × List LogEntry :=
  let r := fetch station.key
  if r.status ≠ 200 then
    (Except.ok none, [LogEntry.statusDebug station.key r.status])
  else
    match r.station with
    | none => (Except.error (PyExn.keyError "station"), [])
    | some so =>
      match so.name with
      | none => (Except.error (PyExn.keyError "name"), [])
      | some station_name =>
        match tryParseTemp r.value with
        | none => (Except.ok none, [LogEntry.noTempWarning station_name])
        | some t =>
          match so.key with
          | none => (Except.error (PyExn.keyError "key"), [])
          | some k =>
            let station_data : StationTemp :=
              { key := some k, name := station_name, temp := t, station := some so }
            (Except.ok (some station_data), [LogEntry.stationInfo station_data])

/-- The staleness test of the aggregation loop:
`updated = datetime.fromtimestamp(station["updated"] // 1000, tz=utc)` followed
by `now - updated > timedelta(days=2)`.  `//` is modelled by `Int.fdiv`
(Python floor division on integers); the instants are compared exactly, in
microseconds, and two days are 172800000000 microseconds. -/
def staleB (now : ℤ) (s : StationRec) : Bool :=
  decide (now - Int.fdiv s.updated 1000 * 1000000 > 172800000000)

/-- `min_station` initializer: `StationTemp(key=None, temp=float("+inf"), name="N/A", station=None)`. -/
def min_station₀ : StationTemp :=
  { key := none, name := "N/A", temp := Temp.posInf, station := none }

/-- `max_station` initializer: `StationTemp(key=None, temp=float("-inf"), name="N/A", station=None)`. -/
def max_station₀ : StationTemp :=
  { key := none, name := "N/A", temp := Temp.negInf, station := none }

/-- `if station_data.temp > max_station.temp: max_station = station_data`. -/
def stepMax (mx sd : StationTemp) : StationTemp :=
  if Temp.gtb sd.temp mx.temp then sd else mx

/-- `if station_data.temp < min_station.temp: min_station = station_data`. -/
def stepMin (mn sd : StationTemp) : StationTemp :=
  if Temp.ltb sd.temp mn.temp then sd else mn

/-- The `for station in stations:` loop of `temperatures_parameter_2`.  A
fresh station is fetched; an absent reading is skipped; a stale station is
skipped after the debug log reads `station["name"]` (KeyError if absent). -/
def scanLoop (fetch : String → StationResponse) (now : ℤ) :
    List StationRec → StationTemp → StationTemp →
    Except PyExn (StationTemp × StationTemp)
  | [], mx, mn => Except.ok (mx, mn)
  | s :: rest, mx, mn =>
    if staleB now s then
      match s.name with
      | none => Except.error (PyExn.keyError "name")
      | some _ => scanLoop fetch now rest mx mn
    else
      match (get_station_data fetch s).1 with
      | Except.error e => Except.error e
      | Except.ok none => scanLoop fetch now rest mx mn
      | Except.ok (some sd) => scanLoop fetch now rest (stepMax mx sd) (stepMin mn sd)

/-- `round(n / d)` for naturals (`d > 0`), ties to even — the rounding of
Python's fixed-point float formatting (applied to the exact value). -/
def roundHalfEvenDiv (n d : ℕ) : ℕ :=
  if 2 * (n % d) < d then n / d
  else if 2 * (n % d) > d then n / d + 1
  else if n / d % 2 = 0 then n / d else n / d + 1

/-- Python `f"{x:.1f}"` for a finite float value `q`: round `|q| * 10` to an
integer in tenths (computed on the exact fraction `10 * |q.num| / q.den`),
then print sign, integer part and the single fractional digit. -/
def fmtQ1 (q : ℚ) : String :=
  let m := roundHalfEvenDiv (10 * q.num.natAbs) q.den
  (if q.num < 0 then "-" else "") ++ toString (m / 10) ++ "." ++ toString (m % 10)

/-- Python `f"{x:.1f}"`: infinities and NaN print as `inf`, `-inf`, `nan`. -/
def fmtTemp : Temp → String
  | Temp.negInf => "-inf"
  | Temp.posInf => "inf"
  | Temp.nan => "nan"
  | Temp.fin q => fmtQ1 q

/-- `f"Highest temperature: {max_station.name}, {max_station.temp:.1f} degrees"`. -/
def hiLine (st : StationTemp) : String :=
  "Highest temperature: " ++ st.name ++ ", " ++ fmtTemp st.temp ++ " degrees"

/-- `f"Lowest temperature: {min_station.name}, {min_station.temp:.1f} degrees"`. -/
def loLine (st : StationTemp) : String :=
  "Lowest temperature: " ++ st.name ++ ", " ++ fmtTemp st.temp ++ " degrees"

/-- Python `a <= b` on the character lists of two strings: lexicographic by
code point, a proper prefix compares smaller. -/
def charsLeB : List Char → List Char → Bool
  | [], _ => true
  | _ :: _, [] => false
  | a :: as, b :: bs =>
    if a.toNat < b.toNat then true
    else if b.toNat < a.toNat then false
    else charsLeB as bs

/-- Python `a <= b` on strings. -/
def strLeB (a b : String) : Bool := charsLeB a.data b.data

/-- The key order `lambda x: x["key"]` used to sort the station list. -/
def keyLe (a b : StationRec) : Prop := strLeB a.key b.key = true

instance : DecidableRel keyLe := fun _ _ => decEq _ _

/-- `sorted(stations, key=lambda x: x["key"])`.  Python's `sorted` is a
stable sort by a total preorder, and a stable sort's output is uniquely
determined by its input and the preorder; insertion sort is stable, so it is
the same function. -/
def sortStations (l : List StationRec) : List StationRec :=
  List.insertionSort keyLe l

/-- `temperatures_parameter_2(self)` as a function of the parsed station-list
body, the single clock sample, and the per-station responses.  The result is
the list of printed lines, or the uncaught exception that aborted the scan
(in which case nothing is printed, as both prints follow the loop). -/
def temperatures_parameter_2 (stationsBody : List StationRec) (now : ℤ)
    (fetch : String → StationResponse) : Except PyExn (List String) :=
  match scanLoop fetch now (sortStations stationsBody) max_station₀ min_station₀ with
  | Except.error e => Except.error e
  | Except.ok (mx, mn) => Except.ok [hiLine mx, loLine mn]

/-- An entry of the parameter catalog's `resource` array. -/
structure ParamRec where
  key : String
  title : String
  summary : String
deriving DecidableEq

/-- Decimal digits accumulated into a natural number; `none` if any
character is not a digit. -/
def decDigitsAux : List Char → ℕ → Option ℕ
  | [], acc => some acc
  | c :: cs, acc =>
    if 48 ≤ c.toNat ∧ c.toNat ≤ 57 then decDigitsAux cs (10 * acc + (c.toNat - 48))
    else none

/-- A nonempty run of decimal digits as a natural number. -/
def decDigits? (l : List Char) : Option ℕ :=
  if l.isEmpty then none else decDigitsAux l 0

/-- Model of Python `int(s)` on the canonical integer strings the catalog
carries (an optional sign followed by digits); `none` models ValueError. -/
def pyInt? (s : String) : Option ℤ :=
  match s.data with
  | [] => none
  | c :: cs =>
    if c = '-' then (decDigits? cs).map (fun n => -(n : ℤ))
    else if c = '+' then (decDigits? cs).map (fun n => (n : ℤ))
    else (decDigits? (c :: cs)).map (fun n => (n : ℤ))

/-- The integer sort key `int(x["key"])` (the catalog entries it is applied
to are required to parse; the default is irrelevant under that hypothesis). -/
def intKeyD (p : ParamRec) : ℤ := (pyInt? p.key).getD 0

/-- Python `f"{k:>3}"`: pad on the left with spaces to width 3. -/
def padKey3 (k : String) : String :=
  String.mk (List.replicate (3 - k.length) ' ') ++ k

/-- `f"{param['key']:>3}, {param['title']} ({param['summary']})"`. -/
def fmtParam (p : ParamRec) : String :=
  padKey3 p.key ++ ", " ++ p.title ++ " (" ++ p.summary ++ ")"

/-- The numeric key order `lambda x: int(x["key"])` used to sort the catalog. -/
def numKeyLe (a b : ParamRec) : Prop := intKeyD a ≤ intKeyD b

instance : DecidableRel numKeyLe := fun _ _ => Int.decLe _ _

/-- `parameters(self)`: `sorted(r.json()["resource"], key=lambda x: int(x["key"]))`
computes every integer key up front (ValueError aborts before any output),
then prints one line per entry in sorted order; `sorted` is stable, so it is
modelled by the stable insertion sort, as for the station list. -/
def parameters (resource : List ParamRec) : Except PyExn (List String) :=
  if resource.all (fun p => (pyInt? p.key).isSome) then
    Except.ok ((List.insertionSort numKeyLe resource).map fmtParam)
  else
    Except.error PyExn.valueError

/-! ## Order facts about `Temp` (Python float comparisons) -/

theorem Temp.ltb_nan_right (a : Temp) : Temp.ltb a Temp.nan = false := by
  cases a <;> rfl

theorem Temp.ltb_nan_left (b : Temp) : Temp.ltb Temp.nan b = false := by
  cases b <;> rfl

theorem Temp.ltb_negInf_right (a : Temp) : Temp.ltb a Temp.negInf = false := by
  cases a <;> rfl

theorem Temp.ltb_posInf_left (b : Temp) : Temp.ltb Temp.posInf b = false := by
  cases b <;> rfl

theorem Temp.ne_nan_left {a b : Temp} (h : Temp.ltb a b = true) : a ≠ Temp.nan := by
  rintro rfl; rw [Temp.ltb_nan_left] at h; exact Bool.false_ne_true h

theorem Temp.ne_nan_right {a b : Temp} (h : Temp.ltb a b = true) : b ≠ Temp.nan := by
  rintro rfl; rw [Temp.ltb_nan_right] at h; exact Bool.false_ne_true h

theorem Temp.ne_negInf_right {a b : Temp} (h : Temp.ltb a b = true) : b ≠ Temp.negInf := by
  rintro rfl; rw [Temp.ltb_negInf_right] at h; exact Bool.false_ne_true h

theorem Temp.ne_posInf_left {a b : Temp} (h : Temp.ltb a b = true) : a ≠ Temp.posInf := by
  rintro rfl; rw [Temp.ltb_posInf_left] at h; exact Bool.false_ne_true h

theorem Temp.leb_refl (a : Temp) : Temp.leb a a = true := by
  simp [Temp.leb]

theorem Temp.leb_of_not_ltb {a b : Temp} (ha : a ≠ Temp.nan) (hb : b ≠ Temp.nan)
    (h : Temp.ltb a b = false) : Temp.leb b a = true := by
  cases a <;> cases b <;> simp_all [Temp.ltb, Temp.leb]
  exact lt_or_eq_of_le (by assumption)

theorem Temp.ltb_trans {a b c : Temp} (h₁ : Temp.ltb a b = true) (h₂ : Temp.ltb b c = true) :
    Temp.ltb a c = true := by
  cases a <;> cases b <;> cases c <;>
    simp_all [Temp.ltb] <;>
    linarith

/-! ## The string order used to sort station keys -/

theorem charsLeB_total (a b : List Char) : charsLeB a b = true ∨ charsLeB b a = true := by
  induction a generalizing b with
  | nil => left; rfl
  | cons x xs ih =>
    cases b with
    | nil => right; rfl
    | cons y ys =>
      by_cases hxy : x.toNat < y.toNat
      · left; simp [charsLeB, hxy]
      · by_cases hyx : y.toNat < x.toNat
        · right; simp [charsLeB, hyx]
        · rcases ih ys with h | h
          · left; simp [charsLeB, hxy, hyx, h]
          · right; simp [charsLeB, hxy, hyx, h]

theorem charsLeB_trans {a b c : List Char} (h₁ : charsLeB a b = true)
    (h₂ : charsLeB b c = true) : charsLeB a c = true := by
  induction a generalizing b c with
  | nil => rfl
  | cons x xs ih =>
    cases b with
    | nil => exact absurd h₁ (by simp [charsLeB])
    | cons y ys =>
      cases c with
      | nil => exact absurd h₂ (by simp [charsLeB])
      | cons z zs =>
        simp only [charsLeB] at h₁ h₂ ⊢
        by_cases e₁ : x.toNat < y.toNat <;> by_cases e₂ : y.toNat < x.toNat <;>
          by_cases e₃ : y.toNat < z.toNat <;> by_cases e₄ : z.toNat < y.toNat <;>
          by_cases e₅ : x.toNat < z.toNat <;> by_cases e₆ : z.toNat < x.toNat <;>
          simp_all <;>
          first
            | omega
            | exact ih h₁ h₂
            | exact Or.inr (ih h₁ h₂)

theorem charsLeB_antisymm {a b : List Char} (h₁ : charsLeB a b = true)
    (h₂ : charsLeB b a = true) : a = b := by
  induction a generalizing b with
  | nil =>
    cases b with
    | nil => rfl
    | cons y ys => exact absurd h₂ (by simp [charsLeB])
  | cons x xs ih =>
    cases b with
    | nil => exact absurd h₁ (by simp [charsLeB])
    | cons y ys =>
      simp only [charsLeB] at h₁ h₂
      by_cases e₁ : x.toNat < y.toNat <;> by_cases e₂ : y.toNat < x.toNat <;>
        simp_all
      · omega
      · have hx : x = y := Char.ext (UInt32.ext (show x.toNat = y.toNat by omega))
        exact ⟨hx, ih h₁ h₂⟩

theorem strLeB_total (a b : String) : strLeB a b = true ∨ strLeB b a = true :=
  charsLeB_total a.data b.data

theorem strLeB_trans {a b c : String} (h₁ : strLeB a b = true) (h₂ : strLeB b c = true) :
    strLeB a c = true :=
  charsLeB_trans h₁ h₂

theorem strLeB_antisymm {a b : String} (h₁ : strLeB a b = true) (h₂ : strLeB b a = true) :
    a = b := by
  cases a; cases b
  exact congrArg String.mk (charsLeB_antisymm h₁ h₂)

instance : IsTotal StationRec keyLe :=
  ⟨fun a b => strLeB_total a.key b.key⟩

instance : IsTrans StationRec keyLe :=
  ⟨fun _ _ _ h₁ h₂ => strLeB_trans h₁ h₂⟩

instance : IsTotal ParamRec numKeyLe :=
  ⟨fun a b => Int.le_total (intKeyD a) (intKeyD b)⟩

instance : IsTrans ParamRec numKeyLe :=
  ⟨fun _ _ _ h₁ h₂ => le_trans h₁ h₂⟩

/-! ## Facts about the station sort -/

theorem sortStations_perm (l : List StationRec) : (sortStations l).Perm l :=
  List.perm_insertionSort keyLe l

theorem mem_sortStations {a : StationRec} {l : List StationRec} :
    a ∈ sortStations l ↔ a ∈ l :=
  (sortStations_perm l).mem_iff

theorem sortStations_sorted (l : List StationRec) :
    List.Pairwise keyLe (sortStations l) :=
  List.sorted_insertionSort keyLe l

/-! ## Characterizations of `get_station_data` -/

theorem get_station_data_congr {fetch fetch' : String → StationResponse} {s : StationRec}
    (h : fetch s.key = fetch' s.key) :
    get_station_data fetch s = get_station_data fetch' s := by
  unfold get_station_data
  rw [h]

theorem get_station_data_ok_some {fetch : String → StationResponse} {s : StationRec}
    {sd : StationTemp} (h : (get_station_data fetch s).1 = Except.ok (some sd)) :
    ∃ so k nm t, (fetch s.key).status = 200 ∧ (fetch s.key).station = some so ∧
      so.key = some k ∧ so.name = some nm ∧ tryParseTemp (fetch s.key).value = some t ∧
      sd = { key := some k, name := nm, temp := t, station := some so } := by
  unfold get_station_data at h
  by_cases hst : (fetch s.key).status = 200
  · cases hso : (fetch s.key).station with
    | none => simp [hst, hso] at h
    | some so =>
      cases hnm : so.name with
      | none => simp [hst, hso, hnm] at h
      | some nm =>
        cases ht : tryParseTemp (fetch s.key).value with
        | none => simp [hst, hso, hnm, ht] at h
        | some t =>
          cases hk : so.key with
          | none => simp [hst, hso, hnm, ht, hk] at h
          | some k =>
            simp [hst, hso, hnm, ht, hk] at h
            exact ⟨so, k, nm, t, hst, rfl, hk, hnm, rfl, h.symm⟩
  · simp [hst] at h

theorem get_station_data_key_isSome {fetch : String → StationResponse} {s : StationRec}
    {sd : StationTemp} (h : (get_station_data fetch s).1 = Except.ok (some sd)) :
    sd.key.isSome = true := by
  obtain ⟨so, k, nm, t, -, -, -, -, -, hsd⟩ := get_station_data_ok_some h
  rw [hsd]
  rfl

/-! ## The aggregation loop as a pair of independent folds -/

/-- The running-maximum fold extracted from the loop body, for a list of
stations that are all fresh and readable, with readings given by `rd`. -/
def foldMax (rd : StationRec → StationTemp) (a : StationTemp) : List StationRec → StationTemp
  | [] => a
  | s :: t => foldMax rd (stepMax a (rd s)) t

/-- The running-minimum fold extracted from the loop body. -/
def foldMin (rd : StationRec → StationTemp) (a : StationTemp) : List StationRec → StationTemp
  | [] => a
  | s :: t => foldMin rd (stepMin a (rd s)) t

theorem scanLoop_eq_folds {fetch : String → StationResponse} {now : ℤ}
    {rd : StationRec → StationTemp} :
    ∀ {l : List StationRec} (mx mn : StationTemp),
      (∀ s ∈ l, staleB now s = false ∧ (get_station_data fetch s).1 = Except.ok (some (rd s))) →
      scanLoop fetch now l mx mn = Except.ok (foldMax rd mx l, foldMin rd mn l)
  | [], mx, mn, _ => rfl
  | s :: t, mx, mn, h => by
    obtain ⟨hfresh, hread⟩ := h s (List.mem_cons_self s t)
    have ht := fun u hu => h u (List.mem_cons_of_mem s hu)
    simp only [scanLoop, hfresh, hread, Bool.false_eq_true, if_false, foldMax, foldMin]
    exact scanLoop_eq_folds _ _ ht

theorem foldMax_const {rd : StationRec → StationTemp} {a : StationTemp} :
    ∀ {l : List StationRec}, (∀ s ∈ l, Temp.gtb (rd s).temp a.temp = false) →
      foldMax rd a l = a
  | [], _ => rfl
  | s :: t, h => by
    have hs := h s (List.mem_cons_self s t)
    simp only [foldMax, stepMax, hs, Bool.false_eq_true, if_false]
    exact foldMax_const fun u hu => h u (List.mem_cons_of_mem s hu)

theorem foldMin_const {rd : StationRec → StationTemp} {a : StationTemp} :
    ∀ {l : List StationRec}, (∀ s ∈ l, Temp.ltb (rd s).temp a.temp = false) →
      foldMin rd a l = a
  | [], _ => rfl
  | s :: t, h => by
    have hs := h s (List.mem_cons_self s t)
    simp only [foldMin, stepMin, hs, Bool.false_eq_true, if_false]
    exact foldMin_const fun u hu => h u (List.mem_cons_of_mem s hu)

/-- The first station of the list to attain the (unique) maximal temperature
wins the running maximum: everything before it is either the same record or
strictly colder, everything after it is no warmer. -/
theorem foldMax_first {rd : StationRec → StationTemp} {q : StationRec → ℚ}
    {s₀ : StationRec} :
    ∀ {l₁ l₂ : List StationRec} {a : StationTemp},
      (∀ s ∈ l₁, s = s₀ ∨ q s < q s₀) →
      (∀ s ∈ l₂, q s ≤ q s₀) →
      (∀ s ∈ l₁ ++ s₀ :: l₂, (rd s).temp = Temp.fin (q s)) →
      (a.temp = Temp.negInf ∨ ∃ p, a.temp = Temp.fin p ∧ p < q s₀) →
      foldMax rd a (l₁ ++ s₀ :: l₂) = rd s₀ := by
  intro l₁
  induction l₁ with
  | nil =>
    intro l₂ a _ h₂ htemp ha
    have h₀ : (rd s₀).temp = Temp.fin (q s₀) := htemp s₀ (by simp)
    have hstep : stepMax a (rd s₀) = rd s₀ := by
      rcases ha with ha | ⟨p, hap, hp⟩
      · simp [stepMax, Temp.gtb, ha, h₀, Temp.ltb]
      · simp [stepMax, Temp.gtb, hap, h₀, Temp.ltb, hp]
    simp only [List.nil_append, foldMax, hstep]
    apply foldMax_const
    intro u hu
    have hu' : (rd u).temp = Temp.fin (q u) := htemp u (by simp [hu])
    simp [Temp.gtb, hu', h₀, Temp.ltb, not_lt.mpr (h₂ u hu)]
  | cons s t ih =>
    intro l₂ a h₁ h₂ htemp ha
    have hmem : ∀ u ∈ t ++ s₀ :: l₂, (rd u).temp = Temp.fin (q u) := by
      intro u hu
      exact htemp u (by simpa using Or.inr (by simpa using hu))
    rcases h₁ s (List.mem_cons_self s t) with rfl | hlt
    · -- the head is the winner itself: it takes the accumulator and keeps it
      have h₀ : (rd s).temp = Temp.fin (q s) := htemp s (by simp)
      have hstep : stepMax a (rd s) = rd s := by
        rcases ha with ha | ⟨p, hap, hp⟩
        · simp [stepMax, Temp.gtb, ha, h₀, Temp.ltb]
        · simp [stepMax, Temp.gtb, hap, h₀, Temp.ltb, hp]
      simp only [List.cons_append, foldMax, hstep]
      apply foldMax_const
      intro u hu
      have hu' : (rd u).temp = Temp.fin (q u) := hmem u hu
      have hle : q u ≤ q s := by
        rcases List.mem_append.mp hu with hu | hu
        · rcases h₁ u (List.mem_cons_of_mem s hu) with rfl | h
          · exact le_refl _
          · exact le_of_lt h
        · rcases List.mem_cons.mp hu with rfl | hu
          · exact le_refl _
          · exact h₂ u hu
      simp [Temp.gtb, hu', h₀, Temp.ltb, not_lt.mpr hle]
    · -- a strictly colder head cannot make the accumulator too warm
      have h₀ : (rd s).temp = Temp.fin (q s) := htemp s (by simp)
      have ha' : (stepMax a (rd s)).temp = Temp.negInf ∨
          ∃ p, (stepMax a (rd s)).temp = Temp.fin p ∧ p < q s₀ := by
        by_cases hrep : Temp.gtb (rd s).temp a.temp = true
        · right
          rw [h₀] at hrep
          exact ⟨q s, by simp [stepMax, h₀, hrep], hlt⟩
        · have : stepMax a (rd s) = a := by simp [stepMax, hrep]
          rw [this]; exact ha
      simp only [List.cons_append, foldMax]
      exact ih (fun u hu => h₁ u (List.mem_cons_of_mem s hu)) h₂ hmem ha'

/-- Dual of `foldMax_first` for the running minimum. -/
theorem foldMin_first {rd : StationRec → StationTemp} {q : StationRec → ℚ}
    {s₀ : StationRec} :
    ∀ {l₁ l₂ : List StationRec} {a : StationTemp},
      (∀ s ∈ l₁, s = s₀ ∨ q s₀ < q s) →
      (∀ s ∈ l₂, q s₀ ≤ q s) →
      (∀ s ∈ l₁ ++ s₀ :: l₂, (rd s).temp = Temp.fin (q s)) →
      (a.temp = Temp.posInf ∨ ∃ p, a.temp = Temp.fin p ∧ q s₀ < p) →
      foldMin rd a (l₁ ++ s₀ :: l₂) = rd s₀ := by
  intro l₁
  induction l₁ with
  | nil =>
    intro l₂ a _ h₂ htemp ha
    have h₀ : (rd s₀).temp = Temp.fin (q s₀) := htemp s₀ (by simp)
    have hstep : stepMin a (rd s₀) = rd s₀ := by
      rcases ha with ha | ⟨p, hap, hp⟩
      · simp [stepMin, ha, h₀, Temp.ltb]
      · simp [stepMin, hap, h₀, Temp.ltb, hp]
    simp only [List.nil_append, foldMin, hstep]
    apply foldMin_const
    intro u hu
    have hu' : (rd u).temp = Temp.fin (q u) := htemp u (by simp [hu])
    simp [hu', h₀, Temp.ltb, not_lt.mpr (h₂ u hu)]
  | cons s t ih =>
    intro l₂ a h₁ h₂ htemp ha
    have hmem : ∀ u ∈ t ++ s₀ :: l₂, (rd u).temp = Temp.fin (q u) := by
      intro u hu
      exact htemp u (by simpa using Or.inr (by simpa using hu))
    rcases h₁ s (List.mem_cons_self s t) with rfl | hlt
    · have h₀ : (rd s).temp = Temp.fin (q s) := htemp s (by simp)
      have hstep : stepMin a (rd s) = rd s := by
        rcases ha with ha | ⟨p, hap, hp⟩
        · simp [stepMin, ha, h₀, Temp.ltb]
        · simp [stepMin, hap, h₀, Temp.ltb, hp]
      simp only [List.cons_append, foldMin, hstep]
      apply foldMin_const
      intro u hu
      have hu' : (rd u).temp = Temp.fin (q u) := hmem u hu
      have hle : q s ≤ q u := by
        rcases List.mem_append.mp hu with hu | hu
        · rcases h₁ u (List.mem_cons_of_mem s hu) with rfl | h
          · exact le_refl _
          · exact le_of_lt h
        · rcases List.mem_cons.mp hu with rfl | hu
          · exact le_refl _
          · exact h₂ u hu
      simp [hu', h₀, Temp.ltb, not_lt.mpr hle]
    · have h₀ : (rd s).temp = Temp.fin (q s) := htemp s (by simp)
      have ha' : (stepMin a (rd s)).temp = Temp.posInf ∨
          ∃ p, (stepMin a (rd s)).temp = Temp.fin p ∧ q s₀ < p := by
        by_cases hrep : Temp.ltb (rd s).temp a.temp = true
        · right
          rw [h₀] at hrep
          exact ⟨q s, by simp [stepMin, h₀, hrep], hlt⟩
        · have : stepMin a (rd s) = a := by simp [stepMin, hrep]
          rw [this]; exact ha
      simp only [List.cons_append, foldMin]
      exact ih (fun u hu => h₁ u (List.mem_cons_of_mem s hu)) h₂ hmem ha'

/-! ## Generic facts about the aggregation loop -/

theorem scanLoop_congr {fetch fetch' : String → StationResponse} {now : ℤ} :
    ∀ {l : List StationRec} (mx mn : StationTemp),
      (∀ s ∈ l, staleB now s = false → fetch s.key = fetch' s.key) →
      scanLoop fetch now l mx mn = scanLoop fetch' now l mx mn
  | [], _, _, _ => rfl
  | s :: t, mx, mn, h => by
    have ht := fun u hu => h u (List.mem_cons_of_mem s hu)
    by_cases hst : staleB now s = true
    · cases hnm : s.name with
      | none => simp [scanLoop, hst, hnm]
      | some nm =>
        simp only [scanLoop, hst, if_true, hnm]
        exact scanLoop_congr _ _ ht
    · have hst' : staleB now s = false := by simpa using hst
      have hg : get_station_data fetch s = get_station_data fetch' s :=
        get_station_data_congr (h s (List.mem_cons_self s t) hst')
      cases hres : (get_station_data fetch' s).1 with
      | error e => simp [scanLoop, hst', hg, hres]
      | ok o =>
        cases o with
        | none =>
          simp only [scanLoop, hst', Bool.false_eq_true, if_false, hg, hres]
          exact scanLoop_congr _ _ ht
        | some sd =>
          simp only [scanLoop, hst', Bool.false_eq_true, if_false, hg, hres]
          exact scanLoop_congr _ _ ht

/-- `x` is a reading that `temperatures_parameter_2` can obtain from one of
the listed stations: some fresh station of `l` whose fetch yields it. -/
def IsReading (fetch : String → StationResponse) (now : ℤ) (l : List StationRec)
    (x : StationTemp) : Prop :=
  ∃ s ∈ l, staleB now s = false ∧ (get_station_data fetch s).1 = Except.ok (some x)

theorem IsReading.mono {fetch : String → StationResponse} {now : ℤ}
    {l l' : List StationRec} {x : StationTemp} (h : IsReading fetch now l x)
    (hsub : ∀ s ∈ l, s ∈ l') : IsReading fetch now l' x := by
  obtain ⟨s, hs, h1, h2⟩ := h
  exact ⟨s, hsub s hs, h1, h2⟩

theorem IsReading.key_isSome {fetch : String → StationResponse} {now : ℤ}
    {l : List StationRec} {x : StationTemp} (h : IsReading fetch now l x) :
    x.key.isSome = true := by
  obtain ⟨s, _, _, h2⟩ := h
  exact get_station_data_key_isSome h2

theorem IsReading.ne_max₀ {fetch : String → StationResponse} {now : ℤ}
    {l : List StationRec} {x : StationTemp} (h : IsReading fetch now l x) :
    x ≠ max_station₀ := by
  intro hx
  have := h.key_isSome
  rw [hx] at this
  simp [max_station₀] at this

theorem IsReading.ne_min₀ {fetch : String → StationResponse} {now : ℤ}
    {l : List StationRec} {x : StationTemp} (h : IsReading fetch now l x) :
    x ≠ min_station₀ := by
  intro hx
  have := h.key_isSome
  rw [hx] at this
  simp [min_station₀] at this

/-- Provenance: each final accumulator is either the value it started with or
a reading of some fresh station of the scanned list. -/
theorem scanLoop_prov {fetch : String → StationResponse} {now : ℤ} :
    ∀ {l : List StationRec} {mx mn : StationTemp} {r : StationTemp × StationTemp},
      scanLoop fetch now l mx mn = Except.ok r →
      (r.1 = mx ∨ IsReading fetch now l r.1) ∧ (r.2 = mn ∨ IsReading fetch now l r.2)
  | [], mx, mn, r, h => by
    simp only [scanLoop, Except.ok.injEq] at h
    constructor <;> left <;> rw [← h]
  | s :: t, mx, mn, r, h => by
    have hmono : ∀ x, IsReading fetch now t x → IsReading fetch now (s :: t) x :=
      fun x hx => hx.mono fun u hu => List.mem_cons_of_mem s hu
    by_cases hst : staleB now s = true
    · cases hnm : s.name with
      | none => simp [scanLoop, hst, hnm] at h
      | some nm =>
        simp only [scanLoop, hst, if_true, hnm] at h
        obtain ⟨h1, h2⟩ := scanLoop_prov h
        exact ⟨h1.imp_right (hmono _), h2.imp_right (hmono _)⟩
    · have hst' : staleB now s = false := by simpa using hst
      cases hres : (get_station_data fetch s).1 with
      | error e => simp [scanLoop, hst', hres] at h
      | ok o =>
        cases o with
        | none =>
          simp only [scanLoop, hst', Bool.false_eq_true, if_false, hres] at h
          obtain ⟨h1, h2⟩ := scanLoop_prov h
          exact ⟨h1.imp_right (hmono _), h2.imp_right (hmono _)⟩
        | some sd =>
          simp only [scanLoop, hst', Bool.false_eq_true, if_false, hres] at h
          obtain ⟨h1, h2⟩ := scanLoop_prov h
          constructor
          · rcases h1 with h1 | h1
            · rw [h1]
              unfold stepMax
              split
              · exact Or.inr ⟨s, List.mem_cons_self s t, hst', hres⟩
              · exact Or.inl rfl
            · exact Or.inr (hmono _ h1)
          · rcases h2 with h2 | h2
            · rw [h2]
              unfold stepMin
              split
              · exact Or.inr ⟨s, List.mem_cons_self s t, hst', hres⟩
              · exact Or.inl rfl
            · exact Or.inr (hmono _ h2)

/-- The invariant maintained by the two accumulators: each is still its
initializer or carries a comparable (non-NaN, non-sentinel-breaking)
temperature, and once both have been replaced the minimum is at most the
maximum. -/
def ExtrInv (mx mn : StationTemp) : Prop :=
  (mx = max_station₀ ∨ (mx.temp ≠ Temp.nan ∧ mx.temp ≠ Temp.negInf)) ∧
  (mn = min_station₀ ∨ (mn.temp ≠ Temp.nan ∧ mn.temp ≠ Temp.posInf)) ∧
  (mx ≠ max_station₀ → mn ≠ min_station₀ → Temp.leb mn.temp mx.temp = true)

theorem ExtrInv.init : ExtrInv max_station₀ min_station₀ :=
  ⟨Or.inl rfl, Or.inl rfl, fun h _ => absurd rfl h⟩

theorem ExtrInv.step {mx mn sd : StationTemp} (h : ExtrInv mx mn) :
    ExtrInv (stepMax mx sd) (stepMin mn sd) := by
  obtain ⟨h1, h2, h3⟩ := h
  by_cases hx : Temp.gtb sd.temp mx.temp = true <;>
    by_cases hn : Temp.ltb sd.temp mn.temp = true
  · -- both replaced by sd
    refine ⟨?_, ?_, ?_⟩ <;> simp only [stepMax, stepMin, hx, hn, if_true]
    · exact Or.inr ⟨Temp.ne_nan_right hx, Temp.ne_negInf_right hx⟩
    · exact Or.inr ⟨Temp.ne_nan_left hn, Temp.ne_posInf_left hn⟩
    · intro _ _; exact Temp.leb_refl _
  · -- only the maximum replaced
    have hn' : Temp.ltb sd.temp mn.temp = false := by simpa using hn
    refine ⟨?_, ?_, ?_⟩ <;>
      simp only [stepMax, stepMin, hx, hn', Bool.false_eq_true, if_true, if_false]
    · exact Or.inr ⟨Temp.ne_nan_right hx, Temp.ne_negInf_right hx⟩
    · exact h2
    · intro _ hmn
      have hmnt : mn.temp ≠ Temp.nan := by
        rcases h2 with h2 | h2
        · exact absurd h2 hmn
        · exact h2.1
      exact Temp.leb_of_not_ltb (Temp.ne_nan_right hx) hmnt hn'
  · -- only the minimum replaced
    have hx' : Temp.gtb sd.temp mx.temp = false := by simpa using hx
    refine ⟨?_, ?_, ?_⟩ <;>
      simp only [stepMax, stepMin, hx', hn, Bool.false_eq_true, if_true, if_false]
    · exact h1
    · exact Or.inr ⟨Temp.ne_nan_left hn, Temp.ne_posInf_left hn⟩
    · intro hmx _
      have hmxt : mx.temp ≠ Temp.nan := by
        rcases h1 with h1 | h1
        · exact absurd h1 hmx
        · exact h1.1
      exact Temp.leb_of_not_ltb hmxt (Temp.ne_nan_left hn) hx'
  · -- neither replaced
    have hx' : Temp.gtb sd.temp mx.temp = false := by simpa using hx
    have hn' : Temp.ltb sd.temp mn.temp = false := by simpa using hn
    refine ⟨?_, ?_, ?_⟩ <;>
      simp only [stepMax, stepMin, hx', hn', Bool.false_eq_true, if_false]
    · exact h1
    · exact h2
    · exact h3

theorem scanLoop_inv {fetch : String → StationResponse} {now : ℤ} :
    ∀ {l : List StationRec} {mx mn : StationTemp} {r : StationTemp × StationTemp},
      scanLoop fetch now l mx mn = Except.ok r → ExtrInv mx mn → ExtrInv r.1 r.2
  | [], mx, mn, r, h, hinv => by
    simp only [scanLoop, Except.ok.injEq] at h
    rw [← h]
    exact hinv
  | s :: t, mx, mn, r, h, hinv => by
    by_cases hst : staleB now s = true
    · cases hnm : s.name with
      | none => simp [scanLoop, hst, hnm] at h
      | some nm =>
        simp only [scanLoop, hst, if_true, hnm] at h
        exact scanLoop_inv h hinv
    · have hst' : staleB now s = false := by simpa using hst
      cases hres : (get_station_data fetch s).1 with
      | error e => simp [scanLoop, hst', hres] at h
      | ok o =>
        cases o with
        | none =>
          simp only [scanLoop, hst', Bool.false_eq_true, if_false, hres] at h
          exact scanLoop_inv h hinv
        | some sd =>
          simp only [scanLoop, hst', Bool.false_eq_true, if_false, hres] at h
          exact scanLoop_inv h hinv.step

/-- Once some fresh station with a finite reading is in the remaining list, a
successful scan ends with both accumulators replaced (away from the `N/A`
initializers). -/
theorem scanLoop_hit {fetch : String → StationResponse} {now : ℤ} {s₀ : StationRec}
    {q₀ : ℚ} {r₀ : StationTemp} :
    ∀ {l : List StationRec} {mx mn : StationTemp} {r : StationTemp × StationTemp},
      scanLoop fetch now l mx mn = Except.ok r → s₀ ∈ l → staleB now s₀ = false →
      (get_station_data fetch s₀).1 = Except.ok (some r₀) → r₀.temp = Temp.fin q₀ →
      r.1 ≠ max_station₀ ∧ r.2 ≠ min_station₀
  | [], _, _, _, _, hmem, _, _, _ => absurd hmem (List.not_mem_nil s₀)
  | s :: t, mx, mn, r, h, hmem, hfresh, hread, hfin => by
    rcases List.mem_cons.mp hmem with rfl | hmem'
    · -- the head is the finite fresh station: both accumulators leave `N/A`
      simp only [scanLoop, hfresh, Bool.false_eq_true, if_false, hread] at h
      have hne : stepMax mx r₀ ≠ max_station₀ ∧ stepMin mn r₀ ≠ min_station₀ := by
        constructor
        · unfold stepMax
          split
          · rename_i hrep
            intro hc
            have := get_station_data_key_isSome hread
            rw [hc] at this
            simp [max_station₀] at this
          · rename_i hrep
            intro hc
            rw [hc] at hrep
            simp [Temp.gtb, max_station₀, hfin, Temp.ltb] at hrep
        · unfold stepMin
          split
          · rename_i hrep
            intro hc
            have := get_station_data_key_isSome hread
            rw [hc] at this
            simp [min_station₀] at this
          · rename_i hrep
            intro hc
            rw [hc] at hrep
            simp [min_station₀, hfin, Temp.ltb] at hrep
      obtain ⟨h1, h2⟩ := scanLoop_prov h
      constructor
      · rcases h1 with h1 | h1
        · rw [h1]; exact hne.1
        · exact h1.ne_max₀
      · rcases h2 with h2 | h2
        · rw [h2]; exact hne.2
        · exact h2.ne_min₀
    · -- the finite fresh station is further on: recurse through this step
      by_cases hst : staleB now s = true
      · cases hnm : s.name with
        | none => simp [scanLoop, hst, hnm] at h
        | some nm =>
          simp only [scanLoop, hst, if_true, hnm] at h
          exact scanLoop_hit h hmem' hfresh hread hfin
      · have hst' : staleB now s = false := by simpa using hst
        cases hres : (get_station_data fetch s).1 with
        | error e => simp [scanLoop, hst', hres] at h
        | ok o =>
          cases o with
          | none =>
            simp only [scanLoop, hst', Bool.false_eq_true, if_false, hres] at h
            exact scanLoop_hit h hmem' hfresh hread hfin
          | some sd =>
            simp only [scanLoop, hst', Bool.false_eq_true, if_false, hres] at h
            exact scanLoop_hit h hmem' hfresh hread hfin

/-- Sufficient per-station conditions under which the scan finishes without
an uncaught exception. -/
theorem scanLoop_ok {fetch : String → StationResponse} {now : ℤ} :
    ∀ {l : List StationRec} (mx mn : StationTemp),
      (∀ s ∈ l, (staleB now s = true → s.name.isSome = true) ∧
        (staleB now s = false → ∃ o, (get_station_data fetch s).1 = Except.ok o)) →
      ∃ r, scanLoop fetch now l mx mn = Except.ok r
  | [], mx, mn, _ => ⟨(mx, mn), rfl⟩
  | s :: t, mx, mn, h => by
    have ht := fun u hu => h u (List.mem_cons_of_mem s hu)
    obtain ⟨hstale, hfresh⟩ := h s (List.mem_cons_self s t)
    by_cases hst : staleB now s = true
    · obtain ⟨nm, hnm⟩ := Option.isSome_iff_exists.mp (hstale hst)
      obtain ⟨r, hr⟩ := scanLoop_ok mx mn ht
      exact ⟨r, by simp only [scanLoop, hst, if_true, hnm]; exact hr⟩
    · have hst' : staleB now s = false := by simpa using hst
      obtain ⟨o, ho⟩ := hfresh hst'
      cases o with
      | none =>
        obtain ⟨r, hr⟩ := scanLoop_ok mx mn ht
        exact ⟨r, by
          simp only [scanLoop, hst', Bool.false_eq_true, if_false, ho]
          exact hr⟩
      | some sd =>
        obtain ⟨r, hr⟩ := scanLoop_ok (stepMax mx sd) (stepMin mn sd) ht
        exact ⟨r, by
          simp only [scanLoop, hst', Bool.false_eq_true, if_false, ho]
          exact hr⟩

/-! ## Claim theorems -/

/-- A well-formed per-station response used by concrete instances. -/
def mkResp (k nm : String) (t : Temp) : StationResponse :=
  { status := 200, station := some { key := some k, name := some nm },
    value := some [{ value := some (ValueLit.num t) }] }

/-- Claim C1: over eligible (fresh, readable) stations with pairwise distinct
(finite) temperatures, the reading of the strictly warmest station is printed
on the "Highest temperature" line and that of the strictly coldest station on
the "Lowest temperature" line, regardless of the order of the fetched list;
the line text formats the temperature with one fractional digit (witnessed on
the three-station instance of the claim). -/
theorem c1_extremes_sound
    (stationsBody : List StationRec) (now : ℤ) (fetch : String → StationResponse)
    (rd : StationRec → StationTemp) (q : StationRec → ℚ) (smax smin : StationRec)
    (hfresh : ∀ s ∈ stationsBody, staleB now s = false)
    (hread : ∀ s ∈ stationsBody, (get_station_data fetch s).1 = Except.ok (some (rd s)))
    (htemp : ∀ s ∈ stationsBody, (rd s).temp = Temp.fin (q s))
    (hmax : smax ∈ stationsBody)
    (hmaxdom : ∀ s ∈ stationsBody, s ≠ smax → q s < q smax)
    (hmin : smin ∈ stationsBody)
    (hmindom : ∀ s ∈ stationsBody, s ≠ smin → q smin < q s) :
    temperatures_parameter_2 stationsBody now fetch =
      Except.ok [hiLine (rd smax), loLine (rd smin)] := by
  unfold temperatures_parameter_2
  have hall : ∀ s ∈ sortStations stationsBody,
      staleB now s = false ∧ (get_station_data fetch s).1 = Except.ok (some (rd s)) :=
    fun s hs => ⟨hfresh s (mem_sortStations.mp hs), hread s (mem_sortStations.mp hs)⟩
  rw [scanLoop_eq_folds max_station₀ min_station₀ hall]
  obtain ⟨u₁, u₂, hu⟩ := List.append_of_mem (mem_sortStations.mpr hmax)
  have humem : ∀ {s : StationRec}, s ∈ u₁ ++ smax :: u₂ → s ∈ stationsBody :=
    fun {s} hs => mem_sortStations.mp (hu ▸ hs)
  have hMax : foldMax rd max_station₀ (sortStations stationsBody) = rd smax := by
    rw [hu]
    apply foldMax_first (q := q)
    · intro s hs
      by_cases hse : s = smax
      · exact Or.inl hse
      · exact Or.inr (hmaxdom s (humem (List.mem_append.mpr (Or.inl hs))) hse)
    · intro s hs
      by_cases hse : s = smax
      · subst hse; exact le_refl _
      · exact le_of_lt
          (hmaxdom s (humem (List.mem_append.mpr (Or.inr (List.mem_cons_of_mem smax hs)))) hse)
    · exact fun s hs => htemp s (humem hs)
    · exact Or.inl rfl
  obtain ⟨v₁, v₂, hv⟩ := List.append_of_mem (mem_sortStations.mpr hmin)
  have hvmem : ∀ {s : StationRec}, s ∈ v₁ ++ smin :: v₂ → s ∈ stationsBody :=
    fun {s} hs => mem_sortStations.mp (hv ▸ hs)
  have hMin : foldMin rd min_station₀ (sortStations stationsBody) = rd smin := by
    rw [hv]
    apply foldMin_first (q := q)
    · intro s hs
      by_cases hse : s = smin
      · exact Or.inl hse
      · exact Or.inr (hmindom s (hvmem (List.mem_append.mpr (Or.inl hs))) hse)
    · intro s hs
      by_cases hse : s = smin
      · subst hse; exact le_refl _
      · exact le_of_lt
          (hmindom s (hvmem (List.mem_append.mpr (Or.inr (List.mem_cons_of_mem smin hs)))) hse)
    · exact fun s hs => htemp s (hvmem hs)
    · exact Or.inl rfl
  rw [hMax, hMin]

/-- The spec's three-station instance: keys "3","1","2" with temperatures
10.0, 12.0, 11.0. -/
def c1Fetch : String → StationResponse := fun k =>
  if k = "1" then mkResp "1" "station1" (Temp.fin 12)
  else if k = "2" then mkResp "2" "station2" (Temp.fin 11)
  else mkResp "3" "station3" (Temp.fin 10)

def c1Body : List StationRec :=
  [{ key := "3", name := none, updated := 0 },
   { key := "1", name := none, updated := 0 },
   { key := "2", name := none, updated := 0 }]

def c1Rd : StationRec → StationTemp := fun s =>
  if s.key = "1" then
    { key := some "1", name := "station1", temp := Temp.fin 12,
      station := some { key := some "1", name := some "station1" } }
  else if s.key = "2" then
    { key := some "2", name := "station2", temp := Temp.fin 11,
      station := some { key := some "2", name := some "station2" } }
  else
    { key := some "3", name := "station3", temp := Temp.fin 10,
      station := some { key := some "3", name := some "station3" } }

def c1Q : StationRec → ℚ := fun s =>
  if s.key = "1" then 12 else if s.key = "2" then 11 else 10

/-- Witness for C1 at the spec's own three-station example. -/
theorem c1_witness :
    (∀ s ∈ c1Body, staleB 0 s = false) ∧
    (∀ s ∈ c1Body, (get_station_data c1Fetch s).1 = Except.ok (some (c1Rd s))) ∧
    (∀ s ∈ c1Body, (c1Rd s).temp = Temp.fin (c1Q s)) ∧
    temperatures_parameter_2 c1Body 0 c1Fetch =
      Except.ok ["Highest temperature: station1, 12.0 degrees",
                 "Lowest temperature: station3, 10.0 degrees"] :=
  ⟨by decide, by decide, by decide, by
    have h := c1_extremes_sound c1Body 0 c1Fetch c1Rd c1Q
      { key := "1", name := none, updated := 0 }
      { key := "3", name := none, updated := 0 }
      (by decide) (by decide) (by decide) (by decide) (by decide) (by decide) (by decide)
    exact h.trans (by decide)⟩

/-- Claim C2: when two or more eligible stations tie on an extreme
temperature, the reading printed for that extremum belongs to the station
with the lexicographically smallest key among the tied ones (for the maximum
and the minimum alike): the loop visits stations in ascending string-key
order and only replaces an accumulator under a strict comparison. -/
theorem c2_tie_break
    (stationsBody : List StationRec) (now : ℤ) (fetch : String → StationResponse)
    (rd : StationRec → StationTemp) (q : StationRec → ℚ) (smax smin : StationRec)
    (hkeys : List.Pairwise (fun a b => a.key ≠ b.key) stationsBody)
    (hfresh : ∀ s ∈ stationsBody, staleB now s = false)
    (hread : ∀ s ∈ stationsBody, (get_station_data fetch s).1 = Except.ok (some (rd s)))
    (htemp : ∀ s ∈ stationsBody, (rd s).temp = Temp.fin (q s))
    (hmax : smax ∈ stationsBody)
    (hmaxdom : ∀ s ∈ stationsBody, q s ≤ q smax)
    (hmaxkey : ∀ s ∈ stationsBody, q s = q smax → strLeB smax.key s.key = true)
    (hmin : smin ∈ stationsBody)
    (hmindom : ∀ s ∈ stationsBody, q smin ≤ q s)
    (hminkey : ∀ s ∈ stationsBody, q s = q smin → strLeB smin.key s.key = true) :
    temperatures_parameter_2 stationsBody now fetch =
      Except.ok [hiLine (rd smax), loLine (rd smin)] := by
  unfold temperatures_parameter_2
  have hall : ∀ s ∈ sortStations stationsBody,
      staleB now s = false ∧ (get_station_data fetch s).1 = Except.ok (some (rd s)) :=
    fun s hs => ⟨hfresh s (mem_sortStations.mp hs), hread s (mem_sortStations.mp hs)⟩
  rw [scanLoop_eq_folds max_station₀ min_station₀ hall]
  have hsorted := sortStations_sorted stationsBody
  have hkeysL : List.Pairwise (fun a b : StationRec => a.key ≠ b.key)
      (sortStations stationsBody) :=
    ((sortStations_perm stationsBody).pairwise_iff fun h he => h he.symm).mpr hkeys
  obtain ⟨u₁, u₂, hu⟩ := List.append_of_mem (mem_sortStations.mpr hmax)
  have humem : ∀ {s : StationRec}, s ∈ u₁ ++ smax :: u₂ → s ∈ stationsBody :=
    fun {s} hs => mem_sortStations.mp (hu ▸ hs)
  have hMax : foldMax rd max_station₀ (sortStations stationsBody) = rd smax := by
    rw [hu]
    have hsor' : List.Pairwise keyLe (u₁ ++ smax :: u₂) := hu ▸ hsorted
    have hkey' : List.Pairwise (fun a b : StationRec => a.key ≠ b.key)
        (u₁ ++ smax :: u₂) := hu ▸ hkeysL
    apply foldMax_first (q := q)
    · intro s hs
      have hsB : s ∈ stationsBody := humem (List.mem_append.mpr (Or.inl hs))
      right
      refine lt_of_le_of_ne (hmaxdom s hsB) fun heq => ?_
      have hle : strLeB s.key smax.key = true :=
        ((List.pairwise_append.mp hsor').2.2 s hs smax (List.mem_cons_self smax u₂))
      have hge : strLeB smax.key s.key = true := hmaxkey s hsB heq
      have hne : s.key ≠ smax.key :=
        (List.pairwise_append.mp hkey').2.2 s hs smax (List.mem_cons_self smax u₂)
      exact hne (strLeB_antisymm hle hge)
    · intro s hs
      exact hmaxdom s (humem (List.mem_append.mpr (Or.inr (List.mem_cons_of_mem smax hs))))
    · exact fun s hs => htemp s (humem hs)
    · exact Or.inl rfl
  obtain ⟨v₁, v₂, hv⟩ := List.append_of_mem (mem_sortStations.mpr hmin)
  have hvmem : ∀ {s : StationRec}, s ∈ v₁ ++ smin :: v₂ → s ∈ stationsBody :=
    fun {s} hs => mem_sortStations.mp (hv ▸ hs)
  have hMin : foldMin rd min_station₀ (sortStations stationsBody) = rd smin := by
    rw [hv]
    have hsor' : List.Pairwise keyLe (v₁ ++ smin :: v₂) := hv ▸ hsorted
    have hkey' : List.Pairwise (fun a b : StationRec => a.key ≠ b.key)
        (v₁ ++ smin :: v₂) := hv ▸ hkeysL
    apply foldMin_first (q := q)
    · intro s hs
      have hsB : s ∈ stationsBody := hvmem (List.mem_append.mpr (Or.inl hs))
      right
      refine lt_of_le_of_ne (hmindom s hsB) fun heq => ?_
      have hle : strLeB s.key smin.key = true :=
        ((List.pairwise_append.mp hsor').2.2 s hs smin (List.mem_cons_self smin v₂))
      have hge : strLeB smin.key s.key = true := hminkey s hsB heq.symm
      have hne : s.key ≠ smin.key :=
        (List.pairwise_append.mp hkey').2.2 s hs smin (List.mem_cons_self smin v₂)
      exact hne (strLeB_antisymm hle hge)
    · intro s hs
      exact hmindom s (hvmem (List.mem_append.mpr (Or.inr (List.mem_cons_of_mem smin hs))))
    · exact fun s hs => htemp s (hvmem hs)
    · exact Or.inl rfl
  rw [hMax, hMin]

/-- A two-station exact tie: keys "2" and "1", both 7.0 degrees. -/
def c2Fetch : String → StationResponse := fun k =>
  if k = "1" then mkResp "1" "stationA" (Temp.fin 7)
  else mkResp "2" "stationB" (Temp.fin 7)

def c2Body : List StationRec :=
  [{ key := "2", name := none, updated := 0 },
   { key := "1", name := none, updated := 0 }]

def c2Rd : StationRec → StationTemp := fun s =>
  if s.key = "1" then
    { key := some "1", name := "stationA", temp := Temp.fin 7,
      station := some { key := some "1", name := some "stationA" } }
  else
    { key := some "2", name := "stationB", temp := Temp.fin 7,
      station := some { key := some "2", name := some "stationB" } }

/-- Witness for C2: on an exact tie the station with key "1" (lexicographically
before "2") is reported for both extrema, although it is listed second. -/
theorem c2_witness :
    List.Pairwise (fun a b : StationRec => a.key ≠ b.key) c2Body ∧
    (∀ s ∈ c2Body, staleB 0 s = false) ∧
    (∀ s ∈ c2Body, (get_station_data c2Fetch s).1 = Except.ok (some (c2Rd s))) ∧
    temperatures_parameter_2 c2Body 0 c2Fetch =
      Except.ok ["Highest temperature: stationA, 7.0 degrees",
                 "Lowest temperature: stationA, 7.0 degrees"] :=
  ⟨by decide, by decide, by decide, by
    have h := c2_tie_break c2Body 0 c2Fetch c2Rd (fun _ => 7)
      { key := "1", name := none, updated := 0 }
      { key := "1", name := none, updated := 0 }
      (by decide) (by decide) (by decide) (by decide) (by decide) (by decide)
      (by decide) (by decide) (by decide) (by decide)
    exact h.trans (by decide)⟩

/-- A station whose millisecond timestamp is exactly two days before `now`
(up to the sub-second part), with a perfectly valid reading available. -/
def c3Station : StationRec := { key := "1", name := some "stationA", updated := 500 }

def c3Fetch : String → StationResponse := fun _ => mkResp "1" "stationA" (Temp.fin 5)

/-- Counterexample to C3 as stated: at `now` = 172800.5 s the station updated
at 500 ms is exactly two days old (`now − updated` is exactly 172800 s, not
more), yet the loop floors the timestamp to whole seconds before comparing,
computes an age of 2 days + 0.5 s, and skips the station: the run prints the
`N/A` sentinels although the station has a valid reading. -/
theorem c3_counterexample :
    (172800500000 : ℤ) - c3Station.updated * 1000 = 172800000000 ∧
    (get_station_data c3Fetch c3Station).1 =
      Except.ok (some { key := some "1", name := "stationA", temp := Temp.fin 5,
                        station := some { key := some "1", name := some "stationA" } }) ∧
    temperatures_parameter_2 [c3Station] 172800500000 c3Fetch =
      Except.ok ["Highest temperature: N/A, -inf degrees",
                 "Lowest temperature: N/A, inf degrees"] := by
  decide

/-- Claim C3 (amended): the staleness filter compares `now` against
`updated // 1000` whole seconds; any station failing it is skipped before its
per-station fetch — the run's outcome does not depend on the responses at the
keys of stale stations — and each printed extremum is either the untouched
initializer or a reading fetched from a fresh listed station.  (Because of the
flooring, a station whose exact age is precisely 2 days can still be
skipped, as the counterexample shows; `now` itself is sampled once and is the
same for every station by construction of the loop.) -/
theorem c3_staleness_filter
    (stationsBody : List StationRec) (now : ℤ)
    (fetch fetch' : String → StationResponse) (out : List String)
    (hagree : ∀ s ∈ stationsBody, staleB now s = false → fetch s.key = fetch' s.key)
    (hrun : temperatures_parameter_2 stationsBody now fetch = Except.ok out) :
    temperatures_parameter_2 stationsBody now fetch' = Except.ok out ∧
    ∃ mx mn, out = [hiLine mx, loLine mn] ∧
      (mx = max_station₀ ∨ IsReading fetch now stationsBody mx) ∧
      (mn = min_station₀ ∨ IsReading fetch now stationsBody mn) := by
  have hcongr : temperatures_parameter_2 stationsBody now fetch =
      temperatures_parameter_2 stationsBody now fetch' := by
    unfold temperatures_parameter_2
    rw [scanLoop_congr max_station₀ min_station₀
      (fun s hs hf => hagree s (mem_sortStations.mp hs) hf)]
  refine ⟨hcongr ▸ hrun, ?_⟩
  unfold temperatures_parameter_2 at hrun
  cases hscan : scanLoop fetch now (sortStations stationsBody) max_station₀ min_station₀ with
  | error e => rw [hscan] at hrun; exact absurd hrun (by simp)
  | ok r =>
    obtain ⟨mx, mn⟩ := r
    rw [hscan] at hrun
    have hout : out = [hiLine mx, loLine mn] := (Except.ok.inj hrun).symm
    obtain ⟨h1, h2⟩ := scanLoop_prov hscan
    exact ⟨mx, mn, hout,
      h1.imp_right fun h => h.mono fun s hs => mem_sortStations.mp hs,
      h2.imp_right fun h => h.mono fun s hs => mem_sortStations.mp hs⟩

/-- One fresh station ("1") and one stale station ("9"); the two fetch
environments differ only in the stale station's response. -/
def c3wBody : List StationRec :=
  [{ key := "1", name := none, updated := 199999000 },
   { key := "9", name := some "old", updated := 0 }]

def c3wFetch : String → StationResponse := fun k =>
  if k = "1" then mkResp "1" "stationA" (Temp.fin 5)
  else mkResp "9" "stationOld" (Temp.fin 99)

def c3wFetch' : String → StationResponse := fun k =>
  if k = "1" then mkResp "1" "stationA" (Temp.fin 5)
  else { status := 500, station := none, value := none }

/-- Witness for the amended C3: the stale station's response is irrelevant. -/
theorem c3_witness :
    (∀ s ∈ c3wBody, staleB 200000000000 s = false → c3wFetch s.key = c3wFetch' s.key) ∧
    temperatures_parameter_2 c3wBody 200000000000 c3wFetch =
      Except.ok ["Highest temperature: stationA, 5.0 degrees",
                 "Lowest temperature: stationA, 5.0 degrees"] ∧
    (temperatures_parameter_2 c3wBody 200000000000 c3wFetch' =
        Except.ok ["Highest temperature: stationA, 5.0 degrees",
                   "Lowest temperature: stationA, 5.0 degrees"] ∧
      ∃ mx mn,
        ["Highest temperature: stationA, 5.0 degrees",
         "Lowest temperature: stationA, 5.0 degrees"] = [hiLine mx, loLine mn] ∧
        (mx = max_station₀ ∨ IsReading c3wFetch 200000000000 c3wBody mx) ∧
        (mn = min_station₀ ∨ IsReading c3wFetch 200000000000 c3wBody mn)) :=
  ⟨by decide, by decide,
    c3_staleness_filter c3wBody 200000000000 c3wFetch c3wFetch' _ (by decide) (by decide)⟩

/-- Claim C4 (amended): `get_station_data` returns a reading iff the response
has status 200 and its body's `station` object is present with both `name`
and `key`, and `value[0].value` parses as a float (finite or not).  A non-200
status yields absence with a debug log; a 200 body with a named station but
no extractable value yields absence with a warning naming that station.  But
a 200 body lacking `station` or `station.name` makes the function raise
KeyError instead of returning absence (so "unknown" is never logged). -/
theorem c4_reading_conditions (fetch : String → StationResponse) (st : StationRec) :
    ((∃ sd, (get_station_data fetch st).1 = Except.ok (some sd)) ↔
      ((fetch st.key).status = 200 ∧
        ∃ so, (fetch st.key).station = some so ∧ so.name.isSome = true ∧
          so.key.isSome = true ∧ (tryParseTemp (fetch st.key).value).isSome = true)) ∧
    ((fetch st.key).status ≠ 200 →
      get_station_data fetch st =
        (Except.ok none, [LogEntry.statusDebug st.key (fetch st.key).status])) ∧
    (∀ so nm, (fetch st.key).status = 200 → (fetch st.key).station = some so →
      so.name = some nm → tryParseTemp (fetch st.key).value = none →
      get_station_data fetch st = (Except.ok none, [LogEntry.noTempWarning nm])) ∧
    ((fetch st.key).status = 200 → (fetch st.key).station = none →
      get_station_data fetch st = (Except.error (PyExn.keyError "station"), [])) ∧
    (∀ so, (fetch st.key).status = 200 → (fetch st.key).station = some so →
      so.name = none →
      get_station_data fetch st = (Except.error (PyExn.keyError "name"), [])) := by
  refine ⟨⟨?_, ?_⟩, ?_, ?_, ?_, ?_⟩
  · rintro ⟨sd, hsd⟩
    obtain ⟨so, k, nm, t, h200, hso, hk, hnm, ht, -⟩ := get_station_data_ok_some hsd
    exact ⟨h200, so, hso, by simp [hnm], by simp [hk], by simp [ht]⟩
  · rintro ⟨h200, so, hso, hnm, hk, ht⟩
    obtain ⟨nm, hnm'⟩ := Option.isSome_iff_exists.mp hnm
    obtain ⟨k, hk'⟩ := Option.isSome_iff_exists.mp hk
    obtain ⟨t, ht'⟩ := Option.isSome_iff_exists.mp ht
    refine ⟨{ key := some k, name := nm, temp := t, station := some so }, ?_⟩
    unfold get_station_data
    simp [h200, hso, hnm', ht', hk']
  · intro hne
    unfold get_station_data
    simp [hne]
  · intro so nm h200 hso hnm ht
    unfold get_station_data
    simp [h200, hso, hnm, ht]
  · intro h200 hso
    unfold get_station_data
    simp [h200, hso]
  · intro so h200 hso hnm
    unfold get_station_data
    simp [h200, hso, hnm]

/-- A 200 response whose observation value parses as `+inf`. -/
def c4Fetch : String → StationResponse := fun _ =>
  { status := 200, station := some { key := some "1", name := some "stationA" },
    value := some [{ value := some (ValueLit.num Temp.posInf) }] }

def c4Station : StationRec := { key := "1", name := none, updated := 0 }

/-- Counterexample to C4 as stated: the value parses as a float but not as a
finite one (it is `+inf`), and a reading is still constructed — the claimed
"if and only if ... finite" fails. -/
theorem c4_counterexample :
    tryParseTemp (c4Fetch c4Station.key).value = some Temp.posInf ∧
    (∀ qv : ℚ, tryParseTemp (c4Fetch c4Station.key).value ≠ some (Temp.fin qv)) ∧
    (get_station_data c4Fetch c4Station).1 =
      Except.ok (some { key := some "1", name := "stationA", temp := Temp.posInf,
                        station := some { key := some "1", name := some "stationA" } }) :=
  ⟨by decide,
   fun qv h => by
     rw [show tryParseTemp (c4Fetch c4Station.key).value = some Temp.posInf from by decide] at h
     exact Temp.noConfusion (Option.some.inj h),
   by decide⟩

/-- Witness for the amended C4 at a 200 response with a missing value. -/
def c4wFetch : String → StationResponse := fun _ =>
  { status := 200, station := some { key := some "1", name := some "stationA" },
    value := some [] }

theorem c4_witness :
    ((∃ sd, (get_station_data c4wFetch c4Station).1 = Except.ok (some sd)) ↔
      ((c4wFetch c4Station.key).status = 200 ∧
        ∃ so, (c4wFetch c4Station.key).station = some so ∧ so.name.isSome = true ∧
          so.key.isSome = true ∧
          (tryParseTemp (c4wFetch c4Station.key).value).isSome = true)) ∧
    ((c4wFetch c4Station.key).status ≠ 200 →
      get_station_data c4wFetch c4Station =
        (Except.ok none, [LogEntry.statusDebug c4Station.key (c4wFetch c4Station.key).status])) ∧
    (∀ so nm, (c4wFetch c4Station.key).status = 200 →
      (c4wFetch c4Station.key).station = some so → so.name = some nm →
      tryParseTemp (c4wFetch c4Station.key).value = none →
      get_station_data c4wFetch c4Station = (Except.ok none, [LogEntry.noTempWarning nm])) ∧
    ((c4wFetch c4Station.key).status = 200 → (c4wFetch c4Station.key).station = none →
      get_station_data c4wFetch c4Station = (Except.error (PyExn.keyError "station"), [])) ∧
    (∀ so, (c4wFetch c4Station.key).status = 200 →
      (c4wFetch c4Station.key).station = some so → so.name = none →
      get_station_data c4wFetch c4Station = (Except.error (PyExn.keyError "name"), [])) :=
  c4_reading_conditions c4wFetch c4Station

/-- Response-level conditions under which `get_station_data` cannot raise. -/
theorem get_station_data_no_raise {fetch : String → StationResponse} {s : StationRec}
    (h : (fetch s.key).status ≠ 200 ∨
      ∃ so, (fetch s.key).station = some so ∧ so.name.isSome = true ∧
        (tryParseTemp (fetch s.key).value = none ∨ so.key.isSome = true)) :
    ∃ o, (get_station_data fetch s).1 = Except.ok o := by
  rcases h with h | ⟨so, hso, hnm, hrest⟩
  · exact ⟨none, by unfold get_station_data; simp [h]⟩
  · by_cases h200 : (fetch s.key).status = 200
    · obtain ⟨nm, hnm'⟩ := Option.isSome_iff_exists.mp hnm
      rcases hrest with ht | hk
      · exact ⟨none, by unfold get_station_data; simp [h200, hso, hnm', ht]⟩
      · obtain ⟨k, hk'⟩ := Option.isSome_iff_exists.mp hk
        cases ht : tryParseTemp (fetch s.key).value with
        | none => exact ⟨none, by unfold get_station_data; simp [h200, hso, hnm', ht]⟩
        | some t =>
          exact ⟨some { key := some k, name := nm, temp := t, station := some so },
            by unfold get_station_data; simp [h200, hso, hnm', ht, hk']⟩
    · exact ⟨none, by unfold get_station_data; simp [h200]⟩

/-- Claim C5 (amended): per-station failures are locally absorbed — provided
every stale station record carries a `name` and every fresh station's
response is either non-200, or a 200 body whose `station` object is present
and named (and, when the value extracts, also keyed).  Under those conditions
the whole scan completes and prints.  (As stated the claim is false: a 200
body lacking `station.name`, or a stale record lacking `name`, raises
KeyError and aborts the scan — see the counterexample.) -/
theorem c5_per_station_absorption
    (stationsBody : List StationRec) (now : ℤ) (fetch : String → StationResponse)
    (h : ∀ s ∈ stationsBody,
      (staleB now s = true → s.name.isSome = true) ∧
      (staleB now s = false →
        (fetch s.key).status ≠ 200 ∨
        ∃ so, (fetch s.key).station = some so ∧ so.name.isSome = true ∧
          (tryParseTemp (fetch s.key).value = none ∨ so.key.isSome = true))) :
    ∃ out, temperatures_parameter_2 stationsBody now fetch = Except.ok out := by
  have h' : ∀ s ∈ sortStations stationsBody,
      (staleB now s = true → s.name.isSome = true) ∧
      (staleB now s = false → ∃ o, (get_station_data fetch s).1 = Except.ok o) := by
    intro s hs
    obtain ⟨h1, h2⟩ := h s (mem_sortStations.mp hs)
    exact ⟨h1, fun hf => get_station_data_no_raise (h2 hf)⟩
  obtain ⟨r, hr⟩ := scanLoop_ok max_station₀ min_station₀ h'
  obtain ⟨mx, mn⟩ := r
  exact ⟨[hiLine mx, loLine mn], by unfold temperatures_parameter_2; rw [hr]⟩

/-- A fresh station whose 200 response body lacks `station.name`. -/
def c5Fetch : String → StationResponse := fun _ =>
  { status := 200, station := some { key := some "1", name := none },
    value := some [{ value := some (ValueLit.num (Temp.fin 5)) }] }

/-- Counterexample to C5 as stated: a malformed body scoped to one single
station (its `station` object lacks `name`) raises KeyError out of
`get_station_data` and aborts the whole scan instead of being skipped. -/
theorem c5_counterexample :
    temperatures_parameter_2 [{ key := "1", name := none, updated := 0 }] 0 c5Fetch =
      Except.error (PyExn.keyError "name") := by
  decide

/-- Witness for the amended C5: one stale-but-named station, one non-200
station, one station with an unparseable value, one fully readable station. -/
def c5wBody : List StationRec :=
  [{ key := "1", name := none, updated := 199999000 },
   { key := "2", name := none, updated := 199999000 },
   { key := "3", name := none, updated := 199999000 },
   { key := "4", name := some "older", updated := 0 }]

def c5wFetch : String → StationResponse := fun k =>
  if k = "1" then mkResp "1" "stationA" (Temp.fin 5)
  else if k = "2" then { status := 404, station := none, value := none }
  else { status := 200, station := some { key := some "3", name := some "stationC" },
         value := some [{ value := some ValueLit.bad }] }

theorem c5_witness :
    (∀ s ∈ c5wBody,
      (staleB 200000000000 s = true → s.name.isSome = true) ∧
      (staleB 200000000000 s = false →
        (c5wFetch s.key).status ≠ 200 ∨
        ∃ so, (c5wFetch s.key).station = some so ∧ so.name.isSome = true ∧
          (tryParseTemp (c5wFetch s.key).value = none ∨ so.key.isSome = true))) ∧
    ∃ out, temperatures_parameter_2 c5wBody 200000000000 c5wFetch = Except.ok out :=
  ⟨by decide, c5_per_station_absorption c5wBody 200000000000 c5wFetch (by decide)⟩

/-- When every station is either stale-with-name or fresh-without-reading,
the loop never touches the accumulators. -/
theorem scanLoop_unchanged {fetch : String → StationResponse} {now : ℤ} :
    ∀ {l : List StationRec} (mx mn : StationTemp),
      (∀ s ∈ l,
        (staleB now s = true ∧ s.name.isSome = true) ∨
        (staleB now s = false ∧ (get_station_data fetch s).1 = Except.ok none)) →
      scanLoop fetch now l mx mn = Except.ok (mx, mn)
  | [], _, _, _ => rfl
  | s :: t, mx, mn, h => by
    have ht := fun u hu => h u (List.mem_cons_of_mem s hu)
    rcases h s (List.mem_cons_self s t) with ⟨hst, hnm⟩ | ⟨hst, hread⟩
    · obtain ⟨nm, hnm'⟩ := Option.isSome_iff_exists.mp hnm
      simp only [scanLoop, hst, if_true, hnm']
      exact scanLoop_unchanged mx mn ht
    · simp only [scanLoop, hst, Bool.false_eq_true, if_false, hread]
      exact scanLoop_unchanged mx mn ht

/-- Claim C6 (amended): when no station yields a reading — the list is empty,
or every station is either stale (and its record carries a `name`) or fresh
but unreadable (fetch yields absence) — the run still succeeds: the
accumulators keep their initializers (`N/A` with ∓infinity) and the two lines
print the `N/A` name with the infinite sentinel temperatures.  (As stated the
claim is false: a stale record without `name` makes the debug log raise
KeyError, failing the run — see the counterexample.) -/
theorem c6_na_sentinel_output
    (stationsBody : List StationRec) (now : ℤ) (fetch : String → StationResponse)
    (h : ∀ s ∈ stationsBody,
      (staleB now s = true ∧ s.name.isSome = true) ∨
      (staleB now s = false ∧ (get_station_data fetch s).1 = Except.ok none)) :
    temperatures_parameter_2 stationsBody now fetch =
      Except.ok [hiLine max_station₀, loLine min_station₀] ∧
    hiLine max_station₀ = "Highest temperature: N/A, -inf degrees" ∧
    loLine min_station₀ = "Lowest temperature: N/A, inf degrees" := by
  refine ⟨?_, by decide, by decide⟩
  unfold temperatures_parameter_2
  rw [scanLoop_unchanged max_station₀ min_station₀
    (fun s hs => h s (mem_sortStations.mp hs))]

def c6Fetch : String → StationResponse := fun _ =>
  { status := 404, station := none, value := none }

/-- Counterexample to C6 as stated: a run in which no station yields a
reading (the single station is stale) nevertheless fails, because the stale
station's record lacks `name` and the debug log raises KeyError. -/
theorem c6_counterexample :
    staleB 200000000000 { key := "1", name := none, updated := 0 } = true ∧
    temperatures_parameter_2 [{ key := "1", name := none, updated := 0 }]
        200000000000 c6Fetch = Except.error (PyExn.keyError "name") := by
  decide

/-- Witness for the amended C6: one stale named station and one fresh
station with a 404 response produce the sentinel output. -/
def c6wBody : List StationRec :=
  [{ key := "1", name := some "stationA", updated := 0 },
   { key := "2", name := none, updated := 199999000 }]

theorem c6_witness :
    (∀ s ∈ c6wBody,
      (staleB 200000000000 s = true ∧ s.name.isSome = true) ∨
      (staleB 200000000000 s = false ∧
        (get_station_data c6Fetch s).1 = Except.ok none)) ∧
    (temperatures_parameter_2 c6wBody 200000000000 c6Fetch =
        Except.ok [hiLine max_station₀, loLine min_station₀] ∧
      hiLine max_station₀ = "Highest temperature: N/A, -inf degrees" ∧
      loLine min_station₀ = "Lowest temperature: N/A, inf degrees") :=
  ⟨by decide, c6_na_sentinel_output c6wBody 200000000000 c6Fetch (by decide)⟩

/-- Claim C7: for a catalog whose keys all parse as integers and are pairwise
distinct as integers, the parameters operation prints exactly one line per
`resource` entry, in strictly ascending order of the integer value of the
string keys, each line being `fmtParam` (key right-aligned to width 3). -/
theorem c7_parameters_sorted (resource : List ParamRec)
    (hparse : ∀ p ∈ resource, (pyInt? p.key).isSome = true)
    (hdist : List.Pairwise (fun a b => intKeyD a ≠ intKeyD b) resource) :
    ∃ l, parameters resource = Except.ok (l.map fmtParam) ∧ l.Perm resource ∧
      List.Pairwise (fun a b => intKeyD a < intKeyD b) l := by
  refine ⟨List.insertionSort numKeyLe resource, ?_,
    List.perm_insertionSort numKeyLe resource, ?_⟩
  · unfold parameters
    rw [if_pos (List.all_eq_true.mpr hparse)]
  · have hsorted : List.Pairwise numKeyLe (List.insertionSort numKeyLe resource) :=
      List.sorted_insertionSort numKeyLe resource
    have hne : List.Pairwise (fun a b : ParamRec => intKeyD a ≠ intKeyD b)
        (List.insertionSort numKeyLe resource) :=
      ((List.perm_insertionSort numKeyLe resource).pairwise_iff
        fun h he => h he.symm).mpr hdist
    exact (hsorted.and hne).imp fun hab => lt_of_le_of_ne hab.1 hab.2

/-- The repository test's catalog, plus a key that sorts numerically after a
longer one ("9" after nothing, before "10" lexicographically but after it
numerically is exercised by "10" < "20"; "9" < "10" numerically though
"10" < "9" lexicographically). -/
def c7Resource : List ParamRec :=
  [{ key := "20", title := "param20", summary := "summary20" },
   { key := "10", title := "param10", summary := "summary10" },
   { key := "9", title := "param9", summary := "summary9" }]

theorem c7_witness :
    (∀ p ∈ c7Resource, (pyInt? p.key).isSome = true) ∧
    List.Pairwise (fun a b => intKeyD a ≠ intKeyD b) c7Resource ∧
    ∃ l, parameters c7Resource = Except.ok (l.map fmtParam) ∧ l.Perm c7Resource ∧
      List.Pairwise (fun a b => intKeyD a < intKeyD b) l :=
  ⟨by decide, by decide, c7_parameters_sorted c7Resource (by decide) (by decide)⟩

/-- Claim C8: against a fixed upstream snapshot (same station-list body, the
same response for every station key) and the same clock sample, the printed
output of `temperatures_parameter_2` is identical across runs — it is a
deterministic function of those inputs alone. -/
theorem c8_deterministic
    (stationsBody : List StationRec) (now : ℤ)
    (fetch fetch' : String → StationResponse)
    (h : ∀ k, fetch k = fetch' k) :
    temperatures_parameter_2 stationsBody now fetch =
      temperatures_parameter_2 stationsBody now fetch' := by
  rw [funext h]

theorem c8_witness :
    (∀ k, c1Fetch k = c1Fetch k) ∧
    temperatures_parameter_2 c1Body 0 c1Fetch =
      temperatures_parameter_2 c1Body 0 c1Fetch :=
  ⟨fun _ => rfl, c8_deterministic c1Body 0 c1Fetch c1Fetch fun _ => rfl⟩

/-- Claim C9 (amended): in a run that completes and in which at least one
eligible station yields a reading with a *finite* temperature, both printed
lines carry actual readings of fresh listed stations (not the `N/A`
initializers) and the "Lowest" temperature is at most the "Highest"
temperature.  (As stated the claim is false for non-finite readings: a single
`inf` reading updates only the maximum and leaves `N/A` on the "Lowest" line
— see the counterexample.) -/
theorem c9_lowest_le_highest
    (stationsBody : List StationRec) (now : ℤ) (fetch : String → StationResponse)
    (out : List String) (s₀ : StationRec) (r₀ : StationTemp) (q₀ : ℚ)
    (hmem : s₀ ∈ stationsBody) (hfresh : staleB now s₀ = false)
    (hread : (get_station_data fetch s₀).1 = Except.ok (some r₀))
    (hfin : r₀.temp = Temp.fin q₀)
    (hrun : temperatures_parameter_2 stationsBody now fetch = Except.ok out) :
    ∃ mx mn, out = [hiLine mx, loLine mn] ∧ Temp.leb mn.temp mx.temp = true ∧
      IsReading fetch now stationsBody mx ∧ IsReading fetch now stationsBody mn := by
  unfold temperatures_parameter_2 at hrun
  cases hscan : scanLoop fetch now (sortStations stationsBody) max_station₀ min_station₀ with
  | error e => rw [hscan] at hrun; exact absurd hrun (by simp)
  | ok r =>
    obtain ⟨mx, mn⟩ := r
    rw [hscan] at hrun
    have hout : out = [hiLine mx, loLine mn] := (Except.ok.inj hrun).symm
    have hinv := scanLoop_inv hscan ExtrInv.init
    obtain ⟨hp1, hp2⟩ := scanLoop_prov hscan
    obtain ⟨hne1, hne2⟩ :=
      scanLoop_hit hscan (mem_sortStations.mpr hmem) hfresh hread hfin
    have hmx : IsReading fetch now stationsBody mx := by
      rcases hp1 with hp1 | hp1
      · exact absurd hp1 hne1
      · exact hp1.mono fun s hs => mem_sortStations.mp hs
    have hmn : IsReading fetch now stationsBody mn := by
      rcases hp2 with hp2 | hp2
      · exact absurd hp2 hne2
      · exact hp2.mono fun s hs => mem_sortStations.mp hs
    exact ⟨mx, mn, hout, hinv.2.2 hne1 hne2, hmx, hmn⟩

/-- A single eligible station whose value parses as `+inf`. -/
def c9Fetch : String → StationResponse := fun _ =>
  { status := 200, station := some { key := some "1", name := some "stationA" },
    value := some [{ value := some (ValueLit.num Temp.posInf) }] }

/-- Counterexample to C9 as stated: an eligible station yields a reading
(with temperature `+inf`), yet the "Lowest temperature" line still carries
the `N/A` sentinel name, because `inf < inf` is false and the minimum
accumulator is never replaced. -/
theorem c9_counterexample :
    (get_station_data c9Fetch { key := "1", name := none, updated := 0 }).1 =
      Except.ok (some { key := some "1", name := "stationA", temp := Temp.posInf,
                        station := some { key := some "1", name := some "stationA" } }) ∧
    temperatures_parameter_2 [{ key := "1", name := none, updated := 0 }] 0 c9Fetch =
      Except.ok ["Highest temperature: stationA, inf degrees",
                 "Lowest temperature: N/A, inf degrees"] := by
  decide

def c9wBody : List StationRec :=
  [{ key := "1", name := none, updated := 0 },
   { key := "2", name := none, updated := 0 }]

def c9wFetch : String → StationResponse := fun k =>
  if k = "1" then mkResp "1" "stationA" (Temp.fin 3)
  else mkResp "2" "stationB" (Temp.fin 8)

theorem c9_witness :
    ({ key := "1", name := none, updated := 0 } : StationRec) ∈ c9wBody ∧
    staleB 0 { key := "1", name := none, updated := 0 } = false ∧
    (get_station_data c9wFetch { key := "1", name := none, updated := 0 }).1 =
      Except.ok (some { key := some "1", name := "stationA", temp := Temp.fin 3,
                        station := some { key := some "1", name := some "stationA" } }) ∧
    ∃ mx mn,
      ["Highest temperature: stationB, 8.0 degrees",
       "Lowest temperature: stationA, 3.0 degrees"] = [hiLine mx, loLine mn] ∧
      Temp.leb mn.temp mx.temp = true ∧
      IsReading c9wFetch 0 c9wBody mx ∧ IsReading c9wFetch 0 c9wBody mn :=
  ⟨by decide, by decide, by decide,
    c9_lowest_le_highest c9wBody 0 c9wFetch _
      { key := "1", name := none, updated := 0 }
      { key := some "1", name := "stationA", temp := Temp.fin 3,
        station := some { key := some "1", name := some "stationA" } }
      3 (by decide) (by decide) (by decide) (by decide) (by decide)⟩

/-- Claim C10: a returned reading's identity (`key`, `name`, retained raw
station record) comes from the response body's `station` object, and the
station argument contributes only its `key` (used for the request path): two
argument records with the same key produce identical results, and the
reading's fields agree with the response's `station` object. -/
theorem c10_identity_from_response
    (fetch : String → StationResponse) (st st' : StationRec) (sd : StationTemp)
    (hkey : st.key = st'.key)
    (hsd : (get_station_data fetch st).1 = Except.ok (some sd)) :
    get_station_data fetch st = get_station_data fetch st' ∧
    ∃ so, (fetch st.key).station = some so ∧ sd.station = some so ∧
      sd.key = so.key ∧ so.name = some sd.name := by
  constructor
  · unfold get_station_data
    rw [hkey]
  · obtain ⟨so, k, nm, t, -, hso, hk, hnm, -, hsd'⟩ := get_station_data_ok_some hsd
    exact ⟨so, hso, by rw [hsd'], by rw [hsd', hk], by rw [hsd', hnm]⟩

/-- Witness for C10: two different argument records with the same key; the
response's `station` object carries a different key and name than either
argument, and the reading reports the response's identity. -/
def c10Fetch : String → StationResponse := fun _ => mkResp "999" "other" (Temp.fin 5)

def c10Arg : StationRec := { key := "1", name := none, updated := 0 }

def c10Arg' : StationRec := { key := "1", name := some "argName", updated := 7 }

def c10Reading : StationTemp :=
  { key := some "999", name := "other", temp := Temp.fin 5,
    station := some { key := some "999", name := some "other" } }

theorem c10_witness :
    c10Arg.key = c10Arg'.key ∧
    (get_station_data c10Fetch c10Arg).1 = Except.ok (some c10Reading) ∧
    (get_station_data c10Fetch c10Arg = get_station_data c10Fetch c10Arg' ∧
      ∃ so, (c10Fetch c10Arg.key).station = some so ∧ c10Reading.station = some so ∧
        c10Reading.key = so.key ∧ so.name = some c10Reading.name) :=
  ⟨rfl, by decide,
    c10_identity_from_response c10Fetch c10Arg c10Arg' c10Reading rfl (by decide)⟩
